import Mathlib

/-!
Verification development for the `w7` static file server
(`src/index.ts`, with `src/index.js` as the elder variant).

The request-resolution and response-construction pipeline of the server is
shallowly embedded here: strings are `List Char`, the filesystem is an explicit
finite map, and each response is a record of status, headers and body.
Every definition is translated from the TypeScript source; the few places
where an external collaborator (the `debounce-fn` debouncer, the `mrmime`
mime table, JavaScript built-ins) is modelled from the specification are
marked in their doc comments.
-/

namespace W7

/-- Character-list view of strings; substring reasoning is done on this type. -/
abbrev Chars := List Char

/-! ## Character matching (model of the literal regexes in `index.ts`) -/

/-- Character comparison; `ci = true` is the case-insensitive mode of the
`/<!doctype html>/i` regex. -/
def chEq (ci : Bool) (a b : Char) : Bool :=
  if ci then a.toLower == b.toLower else a == b

/-- `isMatch ci pat l` holds when `pat` matches at the start of `l`
(a literal-regex match attempt at one position). -/
def isMatch (ci : Bool) : Chars → Chars → Bool
  | [], _ => true
  | _ :: _, [] => false
  | p :: ps, c :: cs => chEq ci p c && isMatch ci ps cs

/-- Split a string at the first match of the literal pattern `pat`:
`some (pre, matched, post)` with `l = pre ++ matched ++ post`, the match
being the leftmost one.  Models `String.prototype.replace` with a
non-global literal regex. -/
def splitFirst (ci : Bool) (pat : Chars) : Chars → Option (Chars × Chars × Chars)
  | [] => if pat.isEmpty then some ([], [], []) else none
  | c :: cs =>
    if isMatch ci pat (c :: cs) then
      some ([], (c :: cs).take pat.length, (c :: cs).drop pat.length)
    else
      (splitFirst ci pat cs).map (fun t => (c :: t.1, t.2.1, t.2.2))

/-- `r.replace(pat, '')` for a literal pattern: removes the first occurrence. -/
def replaceOnce (pat l : Chars) : Chars :=
  match splitFirst false pat l with
  | some (p, _, q) => p ++ q
  | none => l

/-- JavaScript `String.prototype.split` on a single separator character. -/
def splitOnChar (sep : Char) : Chars → List Chars
  | [] => [[]]
  | c :: cs =>
    let r := splitOnChar sep cs
    if c = sep then [] :: r
    else
      match r with
      | [] => [[c]]
      | h :: t => (c :: h) :: t

/-! ## Number parsing (model of `parseInt(x, 10)`) -/

def digToNat (c : Char) : Nat := c.toNat - 48

/-- Base-10 value of a digit string. -/
def digitsVal (l : Chars) : Nat := l.foldl (fun n c => n * 10 + digToNat c) 0

/-- Modelled from the spec: JavaScript `parseInt(s, 10)` on the strings this
server feeds it (no leading whitespace, optional sign, longest digit run;
`none` stands for `NaN`). -/
def parseIntJS (l : Chars) : Option Int :=
  match l with
  | [] => none
  | c :: cs =>
    if c = '-' then
      let ds := cs.takeWhile Char.isDigit
      if ds.isEmpty then none else some (-(digitsVal ds : Int))
    else
      let ds := (c :: cs).takeWhile Char.isDigit
      if ds.isEmpty then none else some ((digitsVal ds : Int))

/-- JavaScript `v || d` on numbers: `NaN` and `0` are falsy. -/
def jsOrInt (v : Option Int) (d : Int) : Int :=
  match v with
  | none => d
  | some n => if n = 0 then d else n

/-! ## Substring occurrences -/

/-- Number of positions of `l` at which `pat` occurs. -/
def countOccur (pat l : Chars) : Nat :=
  ((List.range (l.length + 1)).filter (fun i => isMatch false pat (l.drop i))).length

/-- Whether `pat` occurs somewhere in `l`. -/
def containsSub (pat l : Chars) : Bool :=
  (List.range (l.length + 1)).any (fun i => isMatch false pat (l.drop i))

/-- Whether `s` has a nonempty proper border (a prefix that is also a suffix);
the absence of one makes occurrence counting after an insertion exact. -/
def properBorder (s : Chars) : Bool :=
  (List.range s.length).any
    (fun k => decide (0 < k) && isMatch false (s.take k) (s.drop (s.length - k)))

/-! ## UTF-8 length (model of `Buffer.byteLength`) -/

/-- Modelled from the spec: byte count of one scalar value in UTF-8,
as used by `Buffer.byteLength`. -/
def utf8Size (c : Char) : Nat :=
  if c.toNat < 128 then 1
  else if c.toNat < 2048 then 2
  else if c.toNat < 65536 then 3
  else 4

def utf8Len (l : Chars) : Nat := (l.map utf8Size).sum

/-! ## Live-reload injection (`prependHead`, `ReloadScript` in `index.ts`) -/

def headPat : Chars := "<head>".data

def doctypePat : Chars := "<!doctype html>".data

/-- The fixed client script injected into HTML payloads (`ReloadScript`). -/
def ReloadScript : String :=
  "<script> new EventSource(\x27/__source\x27).addEventListener(\x27message\x27, (\x7b data \x7d) => \x7b if (data === \x27reload\x27) location.reload(); \x7d); </script>"

/-- `prependHead(html, code)`: insert `code` right after the first literal
`<head>`, else right after the first case-insensitive `<!doctype html>`,
else prepend `code` and a newline to the whole document. -/
def prependHead (html code : Chars) : Chars :=
  match splitFirst false headPat html with
  | some (p, m, q) => p ++ m ++ code ++ q
  | none =>
    match splitFirst true doctypePat html with
    | some (p, m, q) => p ++ m ++ code ++ q
    | none => code ++ '\n' :: html

/-! ## Path handling (models of Node's `path.join` / `path.relative` and the
pathname preprocessing in `serve`) -/

/-- `s.endsWith suf`, phrased over character lists so it evaluates in the
kernel. -/
def endsWithS (s suf : String) : Bool :=
  isMatch false suf.data.reverse s.data.reverse

/-- Interleave a separator character between segments. -/
def intercalateChar (sep : Char) : List Chars → Chars
  | [] => []
  | [s] => s
  | s :: rest => s ++ sep :: intercalateChar sep rest

/-- Path segments of a string (split on `/`). -/
def splitSegs (s : String) : List Chars := splitOnChar '/' s.data

/-- Modelled from the spec: Node path normalization over segments — empty and
`.` segments vanish, `..` pops the previous segment (and, on an absolute
path, excess `..` at the root is dropped). -/
def normSegs (segs : List Chars) : List Chars :=
  segs.foldl
    (fun acc seg =>
      if seg = [] ∨ seg = ['.'] then acc
      else if seg = ['.', '.'] then acc.dropLast
      else acc ++ [seg])
    []

/-- `path.join(a, b)` for an absolute `a`, returned in canonical form
(leading slash, no trailing slash, `..` collapsed). -/
def joinPath (a b : String) : String :=
  String.mk ('/' :: intercalateChar '/' (normSegs (splitSegs a ++ splitSegs b)))

/-- Drop the common leading segments of two segment lists. -/
def dropCommon : List Chars → List Chars → List Chars × List Chars
  | a :: as, b :: bs => if a = b then dropCommon as bs else (a :: as, b :: bs)
  | as, bs => (as, bs)

/-- Modelled from the spec: Node `path.relative(frm, to)` on absolute paths. -/
def relPath (frm dst : String) : String :=
  let p := dropCommon (normSegs (splitSegs frm)) (normSegs (splitSegs dst))
  String.mk (intercalateChar '/' (p.1.map (fun _ => ['.', '.']) ++ p.2))

/-- `pathname.indexOf('?', 1)` followed by `pathname.slice(0, idx)`:
strip the query string, searching for `?` from index 1 on. -/
def stripQuery (p : String) : String :=
  match p.data with
  | [] => p
  | c :: cs =>
    match cs.findIdx? (fun x => x == '?') with
    | some i => String.mk (c :: cs.take i)
    | none => p

def hexVal (c : Char) : Option Nat :=
  if '0' ≤ c ∧ c ≤ '9' then some (c.toNat - 48)
  else if 'a' ≤ c ∧ c ≤ 'f' then some (c.toNat - 87)
  else if 'A' ≤ c ∧ c ≤ 'F' then some (c.toNat - 70)
  else none

/-- Modelled from the spec: `decodeURIComponent` on the ASCII range — each
`%XX` hex pair becomes one character, a malformed escape throws (`none`). -/
def percentDecode : Chars → Option Chars
  | [] => some []
  | '%' :: c1 :: c2 :: rest =>
    match hexVal c1, hexVal c2 with
    | some h, some lo => (percentDecode rest).map (fun t => Char.ofNat (16 * h + lo) :: t)
    | _, _ => none
  | '%' :: _ => none
  | c :: rest => (percentDecode rest).map (fun t => c :: t)

/-- `if (pathname.includes('%')) try { pathname = decodeURIComponent(pathname) } catch {}` -/
def percentPhase (p : String) : String :=
  if p.data.contains '%' then
    match percentDecode p.data with
    | some l => String.mk l
    | none => p
  else p

/-- The pathname preprocessing at the top of the request handler:
query stripping, then tolerant percent-decoding. -/
def processedPath (rawUrl : String) : String := percentPhase (stripQuery rawUrl)

/-! ## Mime lookup -/

/-- Modelled from the spec: representative entries of the external `mrmime`
extension table used by `lookup(file)`. -/
def mimeLookup (file : String) : Option String :=
  let ext := (splitOnChar '.' file.data).getLastD []
  if ext = "html".data then some "text/html"
  else if ext = "js".data then some "text/javascript"
  else if ext = "css".data then some "text/css"
  else if ext = "json".data then some "application/json"
  else if ext = "png".data then some "image/png"
  else if ext = "svg".data then some "image/svg+xml"
  else if ext = "txt".data then some "text/plain"
  else none

/-! ## Filesystem model -/

/-- Metadata and content of one regular file (`statSync` + the file bytes). -/
structure FileData where
  contents : Chars
  mtime : Nat
deriving DecidableEq

/-- A filesystem snapshot: regular files with their data, and directories
with their already-rendered entry list (the names `readdir` + the
`isDirectory` mapping produce: subdirectory names carry a trailing `/`). -/
structure FS where
  files : List (String × FileData)
  dirs : List (String × List String)
deriving DecidableEq

def FS.findFile (fs : FS) (p : String) : Option FileData := fs.files.lookup p

def FS.findDir (fs : FS) (p : String) : Option (List String) := fs.dirs.lookup p

/-- `existsSync` -/
def FS.existsB (fs : FS) (p : String) : Bool :=
  (fs.findFile p).isSome || (fs.findDir p).isSome

/-- `statSync(p).isDirectory()` -/
def FS.isDirB (fs : FS) (p : String) : Bool := (fs.findDir p).isSome

/-! ## HTTP request/response model -/

/-- The request headers the server reads. -/
structure Req where
  ifNoneMatch : Option String
  range : Option Chars
deriving DecidableEq

/-- An outgoing response: status, the headers the server sets, and the body. -/
structure Resp where
  status : Nat
  contentLength : Option Int := none
  contentType : Option String := none
  cacheControl : Option String := none
  etagH : Option String := none
  lastModified : Option Nat := none
  contentRange : Option String := none
  acceptRanges : Option String := none
  location : Option String := none
  body : Chars := []
deriving DecidableEq

/-- A caught JavaScript failure value; `sendError` reads fields defensively
(`err[key] || ''`), so both fields are optional. -/
structure JsError where
  message : Option String
  stack : Option String
deriving DecidableEq

/-- `sendHTML`: inject the reload script unless previewing, answer 200 with
`Buffer.byteLength` as content-length. -/
def sendHTML (preview : Bool) (html : Chars) : Resp :=
  let h := if preview then html else prependHead html ReloadScript.data
  { status := 200
    contentLength := some (utf8Len h : Int)
    contentType := some "text/html"
    cacheControl := some "no-store"
    body := h }

/-- The fixed part of `ErrorTemplate` before `{message}`. -/
def errPre : Chars :=
  "<!DOCTYPE html>\n<html><head>\n<title>Error</title>\n<meta charset=\"utf-8\"></head><body>\n<pre>".data

/-- The fixed part of `ErrorTemplate` after `{stack}`. -/
def errSuf : Chars := "</pre>\n".data

/-- `errPre` up to (excluding) its unique `<head>` occurrence. -/
def errPreA : Chars := "<!DOCTYPE html>\n<html>".data

/-- `errPre` after its unique `<head>` occurrence. -/
def errPreB : Chars :=
  "\n<title>Error</title>\n<meta charset=\"utf-8\"></head><body>\n<pre>".data

/-- `ErrorTemplate.replace(/{(\w+)}/g, (_, key) => err[key] || '')`:
the template's only placeholders are `{message}` and `{stack}`. -/
def errorHtmlBody (e : JsError) : Chars :=
  errPre ++ (e.message.getD "").data ++ '\n' :: (e.stack.getD "").data ++ errSuf

/-- `sendError` -/
def sendError (preview : Bool) (e : JsError) : Resp :=
  sendHTML preview (errorHtmlBody e)

/-- The weak validator `` `W/"${stats.size}-${stats.mtime.getTime()}"` ``. -/
def etagOf (size mtime : Nat) : String :=
  "W/\"" ++ toString size ++ "-" ++ toString mtime ++ "\""

/-- `sendFile` on a regular file (the directory case is split off into
`sendFilePath` below).  Translated line by line from `index.ts`:
etag check first, then range parsing with the `parseInt(..) || default`
coercions, then the `.html` branch which hands the full contents to
`sendHTML`, else a streamed byte window. -/
def sendFileCore (preview : Bool) (req : Req) (file : String)
    (contents : Chars) (mtime : Nat) : Resp :=
  let size : Nat := contents.length
  let Etag := etagOf size mtime
  if req.ifNoneMatch = some Etag then
    { status := 304 }
  else
    match req.range with
    | some r =>
      let parts := splitOnChar '-' (replaceOnce "bytes=".data r)
      let x := parts.getD 0 []
      let y := parts.getD 1 []
      let e := jsOrInt (parseIntJS y) ((size : Int) - 1)
      let s := jsOrInt (parseIntJS x) 0
      if s ≥ (size : Int) ∨ e ≥ (size : Int) then
        { status := 416, contentRange := some ("bytes */" ++ toString size) }
      else if endsWithS file ".html" then
        sendHTML preview contents
      else
        { status := 206
          contentLength := some (e - s + 1)
          contentType := some ((mimeLookup file).getD "text/plain")
          cacheControl := some "no-cache"
          etagH := some Etag
          lastModified := some mtime
          contentRange := some ("bytes " ++ toString s ++ "-" ++ toString e ++ "/" ++ toString size)
          acceptRanges := some "bytes"
          body := (contents.drop s.toNat).take (e - s + 1).toNat }
    | none =>
      if endsWithS file ".html" then
        sendHTML preview contents
      else
        { status := 200
          contentLength := some (size : Int)
          contentType := some ((mimeLookup file).getD "text/plain")
          cacheControl := some "no-cache"
          etagH := some Etag
          lastModified := some mtime
          body := contents }

/-! ## Directory listing, error routing and the request handler (`serve`) -/

def jsonEscChar (c : Char) : Chars :=
  if c = '"' ∨ c = '\\' then ['\\', c]
  else if c = '\n' then ['\\', 'n']
  else [c]

/-- Modelled from the spec: `JSON.stringify` on a string (common escapes). -/
def jsonStr (s : String) : String :=
  "\"" ++ String.mk (s.data.map jsonEscChar).flatten ++ "\""

/-- Modelled from the spec: `JSON.stringify` on an array of strings. -/
def jsonArr (names : List String) : String :=
  String.mk ('[' :: intercalateChar ',' (names.map (fun n => (jsonStr n).data)) ++ [']'])

/-- `DirectoryTemplate` before `{dir}`. -/
def dirTplA : String := "<!DOCTYPE html>\n<html><head>\n<title>Index of "

/-- `DirectoryTemplate` between `{dir}` and `{files}`. -/
def dirTplB : String :=
  "</title>\n<meta charset=\"utf-8\"></head><body>\n<table id=\"table\"></table>\n<template id=\"row\">\n  <tr><td><a href=\"\"></a></td></tr>\n</template>\n<script>\nlet $template = document.querySelector(\x27#row\x27)\nlet $table = document.querySelector(\x27#table\x27)\nlet files="

/-- `DirectoryTemplate` after `{files}`. -/
def dirTplC : String :=
  ";\nfor (let file of files) \x7b\n  let tr = $template.content.cloneNode(true)\n  let a = tr.querySelector(\x27a\x27)\n  a.textContent = file\n  a.href = file\n  $table.append(tr)\n\x7d\n</script>\n"

/-- The rendered listing page: `DirectoryTemplate` with `{dir}` and `{files}`
substituted (`data[key] || ''` makes an empty relative path render as-is;
the `|| '.'` fallback is applied before substitution in `listDir`). -/
def dirHtml (dirLabel : String) (names : List String) : Chars :=
  (dirTplA ++ dirLabel ++ dirTplB ++ jsonArr names ++ dirTplC).data

/-- `readdir` failure value for a missing directory (the `stack` text is
runtime-dependent and modelled as absent). -/
def enoentScandir (p : String) : JsError :=
  { message := some ("ENOENT: no such file or directory, scandir \x27" ++ p ++ "\x27")
    stack := none }

/-- `statSync` failure value for a path that vanished between the existence
check and the stat (race); modelled like `enoentScandir`. -/
def enoentStat (p : String) : JsError :=
  { message := some ("ENOENT: no such file or directory, stat \x27" ++ p ++ "\x27")
    stack := none }

/-- `listDir`: `readdir` the directory (throwing `ENOENT` when it does not
exist), render the template, send through `sendHTML`. -/
def listDirPath (fs : FS) (preview : Bool) (cwd : String) (p : String) :
    Except JsError Resp :=
  match fs.findDir p with
  | some names =>
    let rel := relPath cwd p
    .ok (sendHTML preview (dirHtml (if rel = "" then "." else rel) names))
  | none => .error (enoentScandir p)

/-- `sendFile` including its first line: a directory target is delegated to
`listDir`, a vanished file raises. -/
def sendFilePath (fs : FS) (preview : Bool) (cwd : String) (req : Req) (p : String) :
    Except JsError Resp :=
  match fs.findDir p with
  | some _ => listDirPath fs preview cwd p
  | none =>
    match fs.findFile p with
    | some fd => .ok (sendFileCore preview req p fd.contents fd.mtime)
    | none => .error (enoentStat p)

/-- The `single` option: absent, bare `true`, or an explicit filename. -/
inductive SingleOpt
  | off
  | on
  | name (s : String)
deriving DecidableEq

/-- The per-process serving configuration assembled at the top of `serve`. -/
structure Config where
  dir : String
  entryIsFile : Bool
  indexFile : String
  single : SingleOpt
  preview : Bool
  cwd : String
deriving DecidableEq

/-- The resolution outcome of one request path. -/
inductive Target
  | file (p : String)
  | listing (p : String)
  | redirect (location : String)
  | notFound
deriving DecidableEq

/-- The target-resolution decision chain of the request handler in `serve`,
on the preprocessed pathname. -/
def resolveTarget (fs : FS) (cfg : Config) (pathname : String) : Target :=
  if pathname = "/" ∧ fs.existsB cfg.indexFile then .file cfg.indexFile
  else if endsWithS pathname "/" then
    let file := joinPath (joinPath cfg.dir pathname) "index.html"
    if fs.existsB file then .file file
    else .listing (joinPath cfg.dir pathname)
  else
    let file := joinPath cfg.dir pathname
    if fs.existsB file then
      if fs.isDirB file then .redirect (pathname ++ "/") else .file file
    else if fs.existsB (file ++ ".html") then .file (file ++ ".html")
    else
      match cfg.single with
      | .off => .notFound
      | .on =>
        if fs.existsB (joinPath cfg.dir "index.html") then .file (joinPath cfg.dir "index.html")
        else .notFound
      | .name s =>
        if fs.existsB (joinPath cfg.dir s) then .file (joinPath cfg.dir s)
        else .notFound

/-- The long-lived `text/event-stream` response of `clientJoin`. -/
def eventStreamResp : Resp :=
  { status := 200
    contentType := some "text/event-stream"
    cacheControl := some "no-cache"
    body := ": connected\n\n".data }

/-- `res.statusCode = 404; res.end()` -/
def notFoundResp : Resp := { status := 404 }

/-- `sendRedirect` -/
def redirectResp (loc : String) : Resp := { status := 302, location := some loc }

/-- One full pass of the request handler: preprocess the pathname, divert the
reserved `/__source` path, resolve the target, dispatch, and route any
raised failure to `sendError` (the `try`/`catch` around the dispatch). -/
def serveReq (fs : FS) (cfg : Config) (req : Req) (rawUrl : String) : Resp :=
  let pn := processedPath rawUrl
  if cfg.preview = false ∧ pn = "/__source" then eventStreamResp
  else
    match resolveTarget fs cfg pn with
    | .file p =>
      match sendFilePath fs cfg.preview cfg.cwd req p with
      | .ok r => r
      | .error e => sendError cfg.preview e
    | .listing p =>
      match listDirPath fs cfg.preview cfg.cwd p with
      | .ok r => r
      | .error e => sendError cfg.preview e
    | .redirect loc => redirectResp loc
    | .notFound => notFoundResp

/-! ## Live-reload broadcast subsystem -/

/-- One subscribed event-stream connection: its identity and what has been
written to it. -/
structure ClientConn where
  cid : Nat
  written : Chars
deriving DecidableEq

/-- The event-stream message each broadcast writes. -/
def ReloadMessage : Chars := "data: reload\n\n".data

/-- The debounced watcher callback body:
`clients.forEach((client) => client.write('data: reload\n\n'))`. -/
def broadcastReload (clients : List ClientConn) : List ClientConn :=
  clients.map (fun c => { c with written := c.written ++ ReloadMessage })

/-- `{ wait: 100 }` -/
def DebounceWait : Nat := 100

/-- Modelled from the spec: the external `debounce-fn` wrapper as a
trailing-edge debounce over a trace of raw change-event times — the wrapped
function fires at `e + wait` exactly for those events `e` that are not
followed by another event within the wait window. -/
def debounceFires (wait : Nat) (events : List Nat) : List Nat :=
  (events.filter
      (fun e => events.all (fun x => decide (x ≤ e) || decide (e + wait < x)))).map
    (fun e => e + wait)

/-! ## Fixtures used by the concrete (counter)examples -/

/-- Filesystem for the traversal scenario: the served tree `/base` is empty,
a real file lives outside it at `/secret.txt`. -/
def fsTraversal : FS :=
  { files := [("/secret.txt", { contents := "TOP".data, mtime := 0 })]
    dirs := [("/base", [])] }

/-- Configuration serving the directory `/base` (preview mode, no SPA
fallback). -/
def cfgTraversal : Config :=
  { dir := "/base", entryIsFile := false, indexFile := "/base/index.html"
    single := .off, preview := true, cwd := "/base" }

end W7

namespace W7

set_option maxRecDepth 100000

/-! ## General lemmas about the character-matching layer -/

theorem take_append_of_le {α : Type} :
    ∀ {n : Nat} {l : List α} (r : List α), n ≤ l.length → (l ++ r).take n = l.take n
  | 0, _, _, _ => by simp
  | n + 1, [], _, h => by simp at h
  | n + 1, a :: l, r, h => by
    simp only [List.cons_append, List.take_succ_cons]
    rw [take_append_of_le r (Nat.le_of_succ_le_succ h)]

theorem drop_append_of_le {α : Type} :
    ∀ {n : Nat} {l : List α} (r : List α), n ≤ l.length → (l ++ r).drop n = l.drop n ++ r
  | 0, _, _, _ => by simp
  | n + 1, [], _, h => by simp at h
  | n + 1, a :: l, r, h => by
    simp only [List.cons_append, List.drop_succ_cons]
    exact drop_append_of_le r (Nat.le_of_succ_le_succ h)

theorem drop_append_plus {α : Type} :
    ∀ (l r : List α) (n : Nat), (l ++ r).drop (l.length + n) = r.drop n
  | [], r, n => by simp
  | a :: l, r, n => by
    simp only [List.cons_append, List.length_cons]
    have : l.length + 1 + n = (l.length + n) + 1 := by omega
    rw [this, List.drop_succ_cons, drop_append_plus]

theorem isMatch_length_le {ci : Bool} :
    ∀ {pat l : Chars}, isMatch ci pat l = true → pat.length ≤ l.length
  | [], _, _ => Nat.zero_le _
  | p :: ps, [], h => by simp [isMatch] at h
  | p :: ps, c :: cs, h => by
    simp only [isMatch, Bool.and_eq_true] at h
    exact Nat.succ_le_succ (isMatch_length_le h.2)

theorem isMatch_refl_append : ∀ (pat r : Chars), isMatch false pat (pat ++ r) = true
  | [], _ => rfl
  | p :: ps, r => by
    have hrec := isMatch_refl_append ps r
    simp [isMatch, chEq, hrec]

theorem isMatch_append_of_le {ci : Bool} :
    ∀ {pat l : Chars} (r : Chars), pat.length ≤ l.length →
      isMatch ci pat (l ++ r) = isMatch ci pat l
  | [], _, _, _ => rfl
  | p :: ps, [], r, h => by simp at h
  | p :: ps, c :: cs, r, h => by
    simp only [List.cons_append, isMatch, List.append_eq]
    rw [isMatch_append_of_le r (Nat.le_of_succ_le_succ h)]

theorem isMatch_eq_true_iff :
    ∀ {pat l : Chars}, isMatch false pat l = true ↔ ∃ t, l = pat ++ t
  | [], l => by simp [isMatch]
  | p :: ps, [] => by
    constructor
    · intro h; simp [isMatch] at h
    · rintro ⟨t, ht⟩; simp at ht
  | p :: ps, c :: cs => by
    simp only [isMatch, Bool.and_eq_true, chEq, if_neg Bool.false_ne_true, beq_iff_eq]
    constructor
    · rintro ⟨rfl, h⟩
      obtain ⟨t, rfl⟩ := isMatch_eq_true_iff.1 h
      exact ⟨t, rfl⟩
    · rintro ⟨t, ht⟩
      rw [List.cons_append] at ht
      injection ht with h1 h2
      subst h1
      exact ⟨rfl, isMatch_eq_true_iff.2 ⟨t, h2⟩⟩

theorem splitFirst_eq_append {ci : Bool} {pat : Chars} :
    ∀ {l p m q : Chars}, splitFirst ci pat l = some (p, m, q) → l = p ++ m ++ q := by
  intro l
  induction l with
  | nil =>
    intro p m q h
    simp only [splitFirst] at h
    split at h
    · obtain ⟨rfl, rfl, rfl⟩ : p = [] ∧ m = [] ∧ q = [] := by
        injection h with h'
        injection h' with h1 h2
        injection h2 with h3 h4
        exact ⟨h1.symm, h3.symm, h4.symm⟩
      rfl
    · exact absurd h (by simp)
  | cons c cs ih =>
    intro p m q h
    simp only [splitFirst] at h
    split at h
    · injection h with h'
      injection h' with h1 h2
      injection h2 with h3 h4
      subst h1; subst h3; subst h4
      simp
    · cases hsp : splitFirst ci pat cs with
      | none => rw [hsp] at h; simp at h
      | some t =>
        rw [hsp] at h
        obtain ⟨p', m', q'⟩ := t
        simp only [Option.map] at h
        injection h with h'
        injection h' with h1 h2
        injection h2 with h3 h4
        subst h1; subst h3; subst h4
        simp only [List.cons_append, List.append_assoc]
        have := ih hsp
        simp only [List.append_assoc] at this
        rw [← this]

theorem splitFirst_match {ci : Bool} {pat : Chars} :
    ∀ {l p m q : Chars}, splitFirst ci pat l = some (p, m, q) →
      isMatch ci pat (m ++ q) = true ∧ m.length = pat.length := by
  intro l
  induction l with
  | nil =>
    intro p m q h
    simp only [splitFirst] at h
    split at h
    next hemp =>
      obtain ⟨rfl, rfl, rfl⟩ : p = [] ∧ m = [] ∧ q = [] := by
        injection h with h'
        injection h' with h1 h2
        injection h2 with h3 h4
        exact ⟨h1.symm, h3.symm, h4.symm⟩
      have : pat = [] := by
        cases pat
        · rfl
        · simp [List.isEmpty] at hemp
      subst this
      exact ⟨rfl, rfl⟩
    · exact absurd h (by simp)
  | cons c cs ih =>
    intro p m q h
    simp only [splitFirst] at h
    split at h
    next hm =>
      injection h with h'
      injection h' with h1 h2
      injection h2 with h3 h4
      subst h1; subst h3; subst h4
      constructor
      · rw [List.take_append_drop]
        exact hm
      · rw [List.length_take]
        exact Nat.min_eq_left (isMatch_length_le hm)
    · cases hsp : splitFirst ci pat cs with
      | none => rw [hsp] at h; simp at h
      | some t =>
        rw [hsp] at h
        obtain ⟨p', m', q'⟩ := t
        simp only [Option.map] at h
        injection h with h'
        injection h' with h1 h2
        injection h2 with h3 h4
        subst h1; subst h3; subst h4
        exact ih hsp

theorem splitFirst_min {ci : Bool} {pat : Chars} :
    ∀ {l p m q : Chars}, splitFirst ci pat l = some (p, m, q) →
      ∀ i, i < p.length → isMatch ci pat (l.drop i) = false := by
  intro l
  induction l with
  | nil =>
    intro p m q h i hi
    simp only [splitFirst] at h
    split at h
    · obtain rfl : p = [] := by
        injection h with h'
        injection h' with h1 h2
        exact h1.symm
      simp at hi
    · exact absurd h (by simp)
  | cons c cs ih =>
    intro p m q h i hi
    simp only [splitFirst] at h
    split at h
    · obtain rfl : p = [] := by
        injection h with h'
        injection h' with h1 h2
        exact h1.symm
      simp at hi
    next hm =>
      cases hsp : splitFirst ci pat cs with
      | none => rw [hsp] at h; simp at h
      | some t =>
        rw [hsp] at h
        obtain ⟨p', m', q'⟩ := t
        simp only [Option.map] at h
        injection h with h'
        injection h' with h1 h2
        subst h1
        cases i with
        | zero => simpa using Bool.of_not_eq_true hm
        | succ j =>
          simp only [List.drop_succ_cons]
          exact ih hsp j (by simpa using hi)

theorem splitFirst_append {ci : Bool} {pat : Chars} :
    ∀ {l p m q : Chars} (r : Chars), splitFirst ci pat l = some (p, m, q) →
      splitFirst ci pat (l ++ r) = some (p, m, q ++ r) := by
  intro l
  induction l with
  | nil =>
    intro p m q r h
    simp only [splitFirst] at h
    split at h
    next hemp =>
      obtain ⟨rfl, rfl, rfl⟩ : p = [] ∧ m = [] ∧ q = [] := by
        injection h with h'
        injection h' with h1 h2
        injection h2 with h3 h4
        exact ⟨h1.symm, h3.symm, h4.symm⟩
      obtain rfl : pat = [] := by
        cases pat
        · rfl
        · simp [List.isEmpty] at hemp
      cases r with
      | nil => rfl
      | cons a as => simp [splitFirst, isMatch]
    · exact absurd h (by simp)
  | cons c cs ih =>
    intro p m q r h
    simp only [splitFirst] at h
    split at h
    next hm =>
      injection h with h'
      injection h' with h1 h2
      injection h2 with h3 h4
      subst h1; subst h3; subst h4
      have hle : pat.length ≤ (c :: cs).length := isMatch_length_le hm
      have hm' : isMatch ci pat ((c :: cs) ++ r) = true := by
        rw [isMatch_append_of_le r hle]; exact hm
      simp only [List.cons_append] at hm' ⊢
      simp only [splitFirst, hm', if_pos]
      rw [← List.cons_append, take_append_of_le r hle, drop_append_of_le r hle]
    next hm =>
      cases hsp : splitFirst ci pat cs with
      | none => rw [hsp] at h; simp at h
      | some t =>
        rw [hsp] at h
        obtain ⟨p', m', q'⟩ := t
        simp only [Option.map] at h
        injection h with h'
        injection h' with h1 h2
        injection h2 with h3 h4
        subst h1; subst h3; subst h4
        have hle : pat.length ≤ cs.length := by
          have h1 := splitFirst_eq_append hsp
          have h2 := (splitFirst_match hsp).2
          subst h1
          simp [h2]
          omega
        have hm' : isMatch ci pat ((c :: cs) ++ r) = false := by
          have : isMatch ci pat ((c :: cs) ++ r) = isMatch ci pat (c :: cs) :=
            isMatch_append_of_le r (Nat.le_succ_of_le hle)
          rw [this]
          exact Bool.of_not_eq_true hm
        simp only [List.cons_append] at hm' ⊢
        simp only [splitFirst, hm', Bool.false_eq_true, if_neg, if_false]
        rw [ih r hsp]
        rfl

theorem splitFirst_self {pat : Chars} (r : Chars) (h : pat ≠ []) :
    splitFirst false pat (pat ++ r) = some ([], pat, r) := by
  match pat with
  | p :: ps =>
    have hm : isMatch false (p :: ps) (p :: (ps ++ r)) = true := by
      rw [← List.cons_append]
      exact isMatch_refl_append _ _
    show splitFirst false (p :: ps) (p :: (ps ++ r)) = some ([], p :: ps, r)
    simp only [splitFirst, List.append_eq, hm, if_pos]
    rw [← List.cons_append, take_append_of_le r (Nat.le_refl _),
      drop_append_of_le r (Nat.le_refl _)]
    simp

theorem replaceOnce_leading {pat : Chars} (r : Chars) (h : pat ≠ []) :
    replaceOnce pat (pat ++ r) = r := by
  rw [replaceOnce, splitFirst_self r h]
  rfl

theorem splitOnChar_no_sep {sep : Char} :
    ∀ {l : Chars}, sep ∉ l → splitOnChar sep l = [l] := by
  intro l
  induction l with
  | nil => intro _; rfl
  | cons c cs ih =>
    intro h
    have hc : ¬c = sep := fun hc => h (by simp [hc])
    have hcs : sep ∉ cs := fun hm => h (List.mem_cons_of_mem _ hm)
    simp only [splitOnChar, ih hcs, if_neg hc]

theorem splitOnChar_pair {sep : Char} {xs ys : Chars} (hx : sep ∉ xs) (hy : sep ∉ ys) :
    splitOnChar sep (xs ++ sep :: ys) = [xs, ys] := by
  induction xs with
  | nil => simp [splitOnChar, splitOnChar_no_sep hy]
  | cons c cs ih =>
    have hc : ¬c = sep := fun hc => hx (by simp [hc])
    have hcs : sep ∉ cs := fun hm => hx (List.mem_cons_of_mem _ hm)
    simp only [List.cons_append, splitOnChar, List.append_eq, ih hcs, if_neg hc]

theorem takeWhile_eq_self {p : Char → Bool} :
    ∀ {l : Chars}, (∀ c ∈ l, p c = true) → l.takeWhile p = l := by
  intro l
  induction l with
  | nil => intro _; rfl
  | cons c cs ih =>
    intro h
    have hc := h c (List.mem_cons_self _ _)
    simp only [List.takeWhile_cons, hc, if_pos]
    rw [ih (fun x hx => h x (List.mem_cons_of_mem _ hx))]

theorem digit_ne_dash {c : Char} (h : c.isDigit = true) : ¬c = '-' := by
  intro hc
  subst hc
  simp [Char.isDigit] at h

theorem parseIntJS_digits {l : Chars} (hd : ∀ c ∈ l, c.isDigit = true) (hne : l ≠ []) :
    parseIntJS l = some ((digitsVal l : Nat) : Int) := by
  match l with
  | c :: cs =>
    have hc : ¬c = '-' := digit_ne_dash (hd c (List.mem_cons_self _ _))
    have ht : (c :: cs).takeWhile Char.isDigit = c :: cs := takeWhile_eq_self hd
    simp only [parseIntJS, if_neg hc, ht]
    have : (c :: cs).isEmpty = false := rfl
    simp [this]

theorem dash_not_mem_digits {l : Chars} (hd : ∀ c ∈ l, c.isDigit = true) : '-' ∉ l := by
  intro hm
  have := hd _ hm
  simp [Char.isDigit] at this

theorem jsOrInt_some_zero (n : Int) : jsOrInt (some n) 0 = n := by
  by_cases h : n = 0
  · simp [jsOrInt, h]
  · simp [jsOrInt, h]

theorem jsOrInt_some_ne (n d : Int) (h : ¬n = 0) : jsOrInt (some n) d = n := by
  simp [jsOrInt, h]

/-! ## Evaluation lemmas for `sendFileCore` -/

/-- Full 200 response on a non-HTML file without range or matching validator. -/
theorem sendFileCore_200 (preview : Bool) (inm : Option String) (file : String)
    (contents : Chars) (mtime : Nat)
    (hinm : ¬inm = some (etagOf contents.length mtime))
    (hhtml : endsWithS file ".html" = false) :
    sendFileCore preview { ifNoneMatch := inm, range := none } file contents mtime
      = { status := 200
          contentLength := some (contents.length : Int)
          contentType := some ((mimeLookup file).getD "text/plain")
          cacheControl := some "no-cache"
          etagH := some (etagOf contents.length mtime)
          lastModified := some mtime
          body := contents } := by
  simp only [sendFileCore]
  rw [if_neg hinm, if_neg (by simp [hhtml])]

/-- HTML branch without a range header: the full contents go to `sendHTML`. -/
theorem sendFileCore_html (preview : Bool) (inm : Option String) (file : String)
    (contents : Chars) (mtime : Nat)
    (hinm : ¬inm = some (etagOf contents.length mtime))
    (hhtml : endsWithS file ".html" = true) :
    sendFileCore preview { ifNoneMatch := inm, range := none } file contents mtime
      = sendHTML preview contents := by
  simp only [sendFileCore]
  rw [if_neg hinm, if_pos hhtml]

/-- 206 partial response: decimal range `bytes=<xs>-<ys>` with a satisfiable
window whose end bound is nonzero. -/
theorem sendFileCore_206 (preview : Bool) (inm : Option String) (file : String)
    (contents : Chars) (mtime : Nat) (xs ys : Chars)
    (hxd : ∀ c ∈ xs, c.isDigit = true) (hyd : ∀ c ∈ ys, c.isDigit = true)
    (hxne : xs ≠ []) (hyne : ys ≠ [])
    (hinm : ¬inm = some (etagOf contents.length mtime))
    (hab : digitsVal xs ≤ digitsVal ys)
    (hbs : digitsVal ys < contents.length)
    (hb0 : digitsVal ys ≠ 0) :
    sendFileCore preview
        { ifNoneMatch := inm, range := some ("bytes=".data ++ (xs ++ '-' :: ys)) }
        file contents mtime
      = (if endsWithS file ".html" then sendHTML preview contents else
          { status := 206
            contentLength := some ((digitsVal ys : Int) - (digitsVal xs : Int) + 1)
            contentType := some ((mimeLookup file).getD "text/plain")
            cacheControl := some "no-cache"
            etagH := some (etagOf contents.length mtime)
            lastModified := some mtime
            contentRange := some ("bytes " ++ toString ((digitsVal xs : Int)) ++ "-"
              ++ toString ((digitsVal ys : Int)) ++ "/" ++ toString contents.length)
            acceptRanges := some "bytes"
            body := (contents.drop (digitsVal xs)).take (digitsVal ys - digitsVal xs + 1) }) := by
  have hdx : '-' ∉ xs := dash_not_mem_digits hxd
  have hdy : '-' ∉ ys := dash_not_mem_digits hyd
  simp only [sendFileCore]
  rw [if_neg hinm]
  rw [replaceOnce_leading (xs ++ '-' :: ys) (by decide)]
  rw [splitOnChar_pair hdx hdy]
  simp only [List.getD_cons_zero, List.getD_cons_succ]
  rw [parseIntJS_digits hyd hyne, parseIntJS_digits hxd hxne]
  rw [jsOrInt_some_zero, jsOrInt_some_ne _ _ (by exact_mod_cast hb0)]
  rw [if_neg (by omega)]
  have ht1 : ((digitsVal xs : Int)).toNat = digitsVal xs := by omega
  have ht2 : (((digitsVal ys : Int)) - ((digitsVal xs : Int)) + 1).toNat
      = digitsVal ys - digitsVal xs + 1 := by omega
  rw [ht1, ht2]

/-- 416 response: decimal range `bytes=<xs>-<ys>` with an out-of-bounds
start or end. -/
theorem sendFileCore_416 (preview : Bool) (inm : Option String) (file : String)
    (contents : Chars) (mtime : Nat) (xs ys : Chars)
    (hxd : ∀ c ∈ xs, c.isDigit = true) (hyd : ∀ c ∈ ys, c.isDigit = true)
    (hxne : xs ≠ []) (hyne : ys ≠ [])
    (hinm : ¬inm = some (etagOf contents.length mtime))
    (hcond : contents.length ≤ digitsVal xs ∨ contents.length ≤ digitsVal ys) :
    sendFileCore preview
        { ifNoneMatch := inm, range := some ("bytes=".data ++ (xs ++ '-' :: ys)) }
        file contents mtime
      = { status := 416
          contentRange := some ("bytes */" ++ toString contents.length) } := by
  have hdx : '-' ∉ xs := dash_not_mem_digits hxd
  have hdy : '-' ∉ ys := dash_not_mem_digits hyd
  simp only [sendFileCore]
  rw [if_neg hinm]
  rw [replaceOnce_leading (xs ++ '-' :: ys) (by decide)]
  rw [splitOnChar_pair hdx hdy]
  simp only [List.getD_cons_zero, List.getD_cons_succ]
  rw [parseIntJS_digits hyd hyne, parseIntJS_digits hxd hxne]
  rw [jsOrInt_some_zero]
  by_cases hb0 : digitsVal ys = 0
  · rw [hb0]
    have h0 : jsOrInt (some ((0 : Nat) : Int)) ((contents.length : Int) - 1)
        = (contents.length : Int) - 1 := by simp [jsOrInt]
    rw [h0]
    rw [if_pos (by rw [hb0] at hcond; omega)]
  · rw [jsOrInt_some_ne _ _ (by exact_mod_cast hb0)]
    rw [if_pos (by omega)]

/-- 206 partial response for `bytes=<xs>-` (absent end bound): `parseInt('')`
is `NaN`, the `|| stats.size - 1` default applies, and the window extends
to the end of the file. -/
theorem sendFileCore_206_noEnd (preview : Bool) (inm : Option String) (file : String)
    (contents : Chars) (mtime : Nat) (xs : Chars)
    (hxd : ∀ c ∈ xs, c.isDigit = true) (hxne : xs ≠ [])
    (hinm : ¬inm = some (etagOf contents.length mtime))
    (has : digitsVal xs < contents.length) :
    sendFileCore preview { ifNoneMatch := inm, range := some ("bytes=".data ++ (xs ++ ['-'])) }
        file contents mtime
      = (if endsWithS file ".html" then sendHTML preview contents else
          { status := 206
            contentLength := some ((contents.length : Int) - 1 - (digitsVal xs : Int) + 1)
            contentType := some ((mimeLookup file).getD "text/plain")
            cacheControl := some "no-cache"
            etagH := some (etagOf contents.length mtime)
            lastModified := some mtime
            contentRange := some ("bytes " ++ toString ((digitsVal xs : Int)) ++ "-"
              ++ toString ((contents.length : Int) - 1) ++ "/" ++ toString contents.length)
            acceptRanges := some "bytes"
            body := (contents.drop (digitsVal xs)).take (contents.length - digitsVal xs) }) := by
  have hdx : '-' ∉ xs := dash_not_mem_digits hxd
  simp only [sendFileCore]
  rw [if_neg hinm]
  rw [replaceOnce_leading (xs ++ ['-']) (by decide)]
  rw [splitOnChar_pair hdx (by simp)]
  simp only [List.getD_cons_zero, List.getD_cons_succ]
  rw [parseIntJS_digits hxd hxne]
  have hpe : parseIntJS [] = none := rfl
  rw [hpe]
  have hje : jsOrInt none ((contents.length : Int) - 1) = (contents.length : Int) - 1 := rfl
  rw [hje, jsOrInt_some_zero]
  rw [if_neg (by omega)]
  have ht1 : ((digitsVal xs : Int)).toNat = digitsVal xs := by omega
  have ht2 : ((contents.length : Int) - 1 - (digitsVal xs : Int) + 1).toNat
      = contents.length - digitsVal xs := by omega
  rw [ht1, ht2]

/-- 416 response for `bytes=<xs>-` (absent end bound) with an out-of-bounds
start. -/
theorem sendFileCore_416_noEnd (preview : Bool) (inm : Option String) (file : String)
    (contents : Chars) (mtime : Nat) (xs : Chars)
    (hxd : ∀ c ∈ xs, c.isDigit = true) (hxne : xs ≠ [])
    (hinm : ¬inm = some (etagOf contents.length mtime))
    (has : contents.length ≤ digitsVal xs) :
    sendFileCore preview { ifNoneMatch := inm, range := some ("bytes=".data ++ (xs ++ ['-'])) }
        file contents mtime
      = { status := 416
          contentRange := some ("bytes */" ++ toString contents.length) } := by
  have hdx : '-' ∉ xs := dash_not_mem_digits hxd
  simp only [sendFileCore]
  rw [if_neg hinm]
  rw [replaceOnce_leading (xs ++ ['-']) (by decide)]
  rw [splitOnChar_pair hdx (by simp)]
  simp only [List.getD_cons_zero, List.getD_cons_succ]
  rw [parseIntJS_digits hxd hxne]
  have hpe : parseIntJS [] = none := rfl
  rw [hpe]
  have hje : jsOrInt none ((contents.length : Int) - 1) = (contents.length : Int) - 1 := rfl
  rw [hje, jsOrInt_some_zero]
  rw [if_pos (by omega)]

/-- 206 partial response for `bytes=-<ys>` (absent start bound): the start
defaults to 0 and the window is `[0, b]`. -/
theorem sendFileCore_206_noStart (preview : Bool) (inm : Option String) (file : String)
    (contents : Chars) (mtime : Nat) (ys : Chars)
    (hyd : ∀ c ∈ ys, c.isDigit = true) (hyne : ys ≠ [])
    (hinm : ¬inm = some (etagOf contents.length mtime))
    (hbs : digitsVal ys < contents.length)
    (hb0 : digitsVal ys ≠ 0) :
    sendFileCore preview { ifNoneMatch := inm, range := some ("bytes=".data ++ ('-' :: ys)) }
        file contents mtime
      = (if endsWithS file ".html" then sendHTML preview contents else
          { status := 206
            contentLength := some ((digitsVal ys : Int) - 0 + 1)
            contentType := some ((mimeLookup file).getD "text/plain")
            cacheControl := some "no-cache"
            etagH := some (etagOf contents.length mtime)
            lastModified := some mtime
            contentRange := some ("bytes " ++ toString (0 : Int) ++ "-"
              ++ toString ((digitsVal ys : Int)) ++ "/" ++ toString contents.length)
            acceptRanges := some "bytes"
            body := contents.take (digitsVal ys + 1) }) := by
  have hdy : '-' ∉ ys := dash_not_mem_digits hyd
  simp only [sendFileCore]
  rw [if_neg hinm]
  rw [replaceOnce_leading ('-' :: ys) (by decide)]
  have hsp : splitOnChar '-' ('-' :: ys) = [[], ys] := splitOnChar_pair (List.not_mem_nil '-') hdy
  rw [hsp]
  simp only [List.getD_cons_zero, List.getD_cons_succ]
  rw [parseIntJS_digits hyd hyne]
  have hpe : parseIntJS [] = none := rfl
  rw [hpe]
  have hjs : jsOrInt none (0 : Int) = 0 := rfl
  rw [hjs, jsOrInt_some_ne _ _ (by exact_mod_cast hb0)]
  rw [if_neg (by omega)]
  have ht1 : ((0 : Int)).toNat = 0 := rfl
  have ht2 : ((digitsVal ys : Int) - 0 + 1).toNat = digitsVal ys + 1 := by omega
  rw [ht1, ht2, List.drop_zero]

/-! ## Claim C1 — path traversal -/

/-- Claim C1 (code bug): a request whose normalized path escapes the base
directory is NOT resolved to `NotFound`.  With `/base` served and a real
file at `/secret.txt`, the request `GET /../secret.txt` resolves to the
file `/secret.txt` — which does not lie under `/base/` — and the server
answers 200 with that file's contents instead of the 404 the claim
requires. -/
theorem c1_traversal_escapes_base :
    resolveTarget fsTraversal cfgTraversal "/../secret.txt" = Target.file "/secret.txt"
    ∧ isMatch false "/base/".data "/secret.txt".data = false
    ∧ (serveReq fsTraversal cfgTraversal { ifNoneMatch := none, range := none }
        "/../secret.txt").status = 200
    ∧ (serveReq fsTraversal cfgTraversal { ifNoneMatch := none, range := none }
        "/../secret.txt").body = "TOP".data := by
  decide

/-! ## Claim C4 — If-None-Match precedence -/

/-- Claim C4: whenever the request's `if-none-match` header equals the
validator derived from the file's metadata, the response is 304 with an
empty body — for every request, in particular whatever `Range` header is
also present (the conditional check runs first), and deterministically so
on every repetition. -/
theorem c4_if_none_match_304 (preview : Bool) (req : Req) (file : String)
    (contents : Chars) (mtime : Nat)
    (h : req.ifNoneMatch = some (etagOf contents.length mtime)) :
    (sendFileCore preview req file contents mtime).status = 304
    ∧ (sendFileCore preview req file contents mtime).body = [] := by
  constructor
  · simp only [sendFileCore]
    rw [if_pos h]
  · simp only [sendFileCore]
    rw [if_pos h]

/-- Witness for C4: a concrete HTML file of size 1 and mtime 0, requested
with the matching validator and a `Range` header. -/
theorem c4_if_none_match_304_witness :
    (sendFileCore false { ifNoneMatch := some (etagOf 1 0), range := some "bytes=0-0".data }
      "a.html" "x".data 0).status = 304
    ∧ (sendFileCore false { ifNoneMatch := some (etagOf 1 0), range := some "bytes=0-0".data }
      "a.html" "x".data 0).body = [] :=
  c4_if_none_match_304 false _ "a.html" "x".data 0 (by decide)

/-! ## Claims C2, C3, C5, C7 -/

theorem toString_intCast (n : Nat) : toString ((n : Nat) : Int) = toString n := rfl

/-- Claim C2 (amended): for a non-HTML file of size `s` and a request
`Range: bytes=a-b` written in decimal: when `0 ≤ a ≤ b < s` AND the parsed
end bound is nonzero, the response is 206 with body length `b - a + 1` and
`Content-Range: bytes a-b/s` (a parsed end bound of `0` is falsy in
JavaScript and treated like an absent bound, i.e. end of file — the sole
amendment); when `a ≥ s` or `b ≥ s`, the response is 416 with an empty
body and `Content-Range: bytes */s`.  The absent-bound semantics hold as
claimed: `bytes=a-` (absent end) serves to the end of the file — 206 with
body `contents[a..s)` and `Content-Range: bytes a-(s-1)/s` when `a < s`,
416 when `a ≥ s` — and `bytes=-b` (absent start) treats the start as 0,
serving `[0, b]` with body length `b + 1`. -/
theorem c2_range_negotiation (preview : Bool) (inm : Option String) (file : String)
    (contents : Chars) (mtime : Nat) (xs ys : Chars) (a b s : Nat)
    (hxd : ∀ c ∈ xs, c.isDigit = true) (hyd : ∀ c ∈ ys, c.isDigit = true)
    (hxne : xs ≠ []) (hyne : ys ≠ [])
    (ha : digitsVal xs = a) (hb : digitsVal ys = b) (hs : contents.length = s)
    (hinm : ¬inm = some (etagOf contents.length mtime))
    (hhtml : endsWithS file ".html" = false) :
    (a ≤ b → b < s → b ≠ 0 →
      (sendFileCore preview
          { ifNoneMatch := inm, range := some ("bytes=".data ++ (xs ++ '-' :: ys)) }
          file contents mtime).status = 206
      ∧ (sendFileCore preview
          { ifNoneMatch := inm, range := some ("bytes=".data ++ (xs ++ '-' :: ys)) }
          file contents mtime).body.length = b - a + 1
      ∧ (sendFileCore preview
          { ifNoneMatch := inm, range := some ("bytes=".data ++ (xs ++ '-' :: ys)) }
          file contents mtime).contentRange
        = some ("bytes " ++ toString a ++ "-" ++ toString b ++ "/" ++ toString s))
    ∧ (s ≤ a ∨ s ≤ b →
      (sendFileCore preview
          { ifNoneMatch := inm, range := some ("bytes=".data ++ (xs ++ '-' :: ys)) }
          file contents mtime).status = 416
      ∧ (sendFileCore preview
          { ifNoneMatch := inm, range := some ("bytes=".data ++ (xs ++ '-' :: ys)) }
          file contents mtime).body = []
      ∧ (sendFileCore preview
          { ifNoneMatch := inm, range := some ("bytes=".data ++ (xs ++ '-' :: ys)) }
          file contents mtime).contentRange = some ("bytes */" ++ toString s))
    ∧ (a < s →
      (sendFileCore preview { ifNoneMatch := inm, range := some ("bytes=".data ++ (xs ++ ['-'])) }
          file contents mtime).status = 206
      ∧ (sendFileCore preview { ifNoneMatch := inm, range := some ("bytes=".data ++ (xs ++ ['-'])) }
          file contents mtime).body = contents.drop a
      ∧ (sendFileCore preview { ifNoneMatch := inm, range := some ("bytes=".data ++ (xs ++ ['-'])) }
          file contents mtime).body.length = s - a
      ∧ (sendFileCore preview { ifNoneMatch := inm, range := some ("bytes=".data ++ (xs ++ ['-'])) }
          file contents mtime).contentRange
        = some ("bytes " ++ toString a ++ "-" ++ toString (s - 1) ++ "/" ++ toString s))
    ∧ (s ≤ a →
      (sendFileCore preview { ifNoneMatch := inm, range := some ("bytes=".data ++ (xs ++ ['-'])) }
          file contents mtime).status = 416
      ∧ (sendFileCore preview { ifNoneMatch := inm, range := some ("bytes=".data ++ (xs ++ ['-'])) }
          file contents mtime).body = []
      ∧ (sendFileCore preview { ifNoneMatch := inm, range := some ("bytes=".data ++ (xs ++ ['-'])) }
          file contents mtime).contentRange = some ("bytes */" ++ toString s))
    ∧ (b < s → b ≠ 0 →
      (sendFileCore preview { ifNoneMatch := inm, range := some ("bytes=".data ++ ('-' :: ys)) }
          file contents mtime).status = 206
      ∧ (sendFileCore preview { ifNoneMatch := inm, range := some ("bytes=".data ++ ('-' :: ys)) }
          file contents mtime).body = contents.take (b + 1)
      ∧ (sendFileCore preview { ifNoneMatch := inm, range := some ("bytes=".data ++ ('-' :: ys)) }
          file contents mtime).body.length = b + 1
      ∧ (sendFileCore preview { ifNoneMatch := inm, range := some ("bytes=".data ++ ('-' :: ys)) }
          file contents mtime).contentRange
        = some ("bytes 0-" ++ toString b ++ "/" ++ toString s)) := by
  subst ha; subst hb; subst hs
  refine ⟨?_, ?_, ?_, ?_, ?_⟩
  · intro h1 h2 h3
    rw [sendFileCore_206 preview inm file contents mtime xs ys hxd hyd hxne hyne hinm h1 h2 h3]
    rw [if_neg (by simp [hhtml])]
    refine ⟨rfl, ?_, ?_⟩
    · simp only [List.length_take, List.length_drop]
      omega
    · rw [toString_intCast, toString_intCast]
  · intro hc
    rw [sendFileCore_416 preview inm file contents mtime xs ys hxd hyd hxne hyne hinm hc]
    exact ⟨rfl, rfl, rfl⟩
  · intro h1
    rw [sendFileCore_206_noEnd preview inm file contents mtime xs hxd hxne hinm h1]
    rw [if_neg (by simp [hhtml])]
    have hbody : (contents.drop (digitsVal xs)).take (contents.length - digitsVal xs)
        = contents.drop (digitsVal xs) := by
      have hl : (contents.drop (digitsVal xs)).length = contents.length - digitsVal xs :=
        List.length_drop _ contents
      rw [← hl, List.take_length]
    refine ⟨rfl, hbody, ?_, ?_⟩
    · rw [hbody, List.length_drop]
    · have hcast : (contents.length : Int) - 1 = ((contents.length - 1 : Nat) : Int) := by omega
      rw [toString_intCast, hcast, toString_intCast]
  · intro hc
    rw [sendFileCore_416_noEnd preview inm file contents mtime xs hxd hxne hinm hc]
    exact ⟨rfl, rfl, rfl⟩
  · intro h1 h2
    rw [sendFileCore_206_noStart preview inm file contents mtime ys hyd hyne hinm h1 h2]
    rw [if_neg (by simp [hhtml])]
    refine ⟨rfl, rfl, ?_, ?_⟩
    · rw [List.length_take]
      omega
    · rw [toString_intCast]
      have hz : ("bytes " ++ toString (0 : Int)) ++ "-" = "bytes 0-" := by decide
      rw [hz]

/-- Witness for C2: on the 5-byte file `abcde`, `Range: bytes=1-2` yields 206
with body length 2; `bytes=7-2` (start beyond the size) yields 416 with
empty body; `bytes=1-` (absent end) yields 206 serving to the end of the
file; `bytes=7-` (absent end, start beyond size) yields 416; and
`bytes=-2` (absent start, treated as 0) yields 206 with body `abc`. -/
theorem c2_range_negotiation_witness :
    ((sendFileCore false
        { ifNoneMatch := none, range := some ("bytes=".data ++ (['1'] ++ '-' :: ['2'])) }
        "a.txt" "abcde".data 0).status = 206
      ∧ (sendFileCore false
        { ifNoneMatch := none, range := some ("bytes=".data ++ (['1'] ++ '-' :: ['2'])) }
        "a.txt" "abcde".data 0).body.length = 2 - 1 + 1)
    ∧ ((sendFileCore false
        { ifNoneMatch := none, range := some ("bytes=".data ++ (['7'] ++ '-' :: ['2'])) }
        "a.txt" "abcde".data 0).status = 416
      ∧ (sendFileCore false
        { ifNoneMatch := none, range := some ("bytes=".data ++ (['7'] ++ '-' :: ['2'])) }
        "a.txt" "abcde".data 0).body = [])
    ∧ ((sendFileCore false
        { ifNoneMatch := none, range := some ("bytes=".data ++ (['1'] ++ ['-'])) }
        "a.txt" "abcde".data 0).status = 206
      ∧ (sendFileCore false
        { ifNoneMatch := none, range := some ("bytes=".data ++ (['1'] ++ ['-'])) }
        "a.txt" "abcde".data 0).body = "abcde".data.drop 1
      ∧ (sendFileCore false
        { ifNoneMatch := none, range := some ("bytes=".data ++ (['1'] ++ ['-'])) }
        "a.txt" "abcde".data 0).contentRange
        = some ("bytes " ++ toString 1 ++ "-" ++ toString (5 - 1) ++ "/" ++ toString 5))
    ∧ ((sendFileCore false
        { ifNoneMatch := none, range := some ("bytes=".data ++ (['7'] ++ ['-'])) }
        "a.txt" "abcde".data 0).status = 416)
    ∧ ((sendFileCore false
        { ifNoneMatch := none, range := some ("bytes=".data ++ ('-' :: ['2'])) }
        "a.txt" "abcde".data 0).status = 206
      ∧ (sendFileCore false
        { ifNoneMatch := none, range := some ("bytes=".data ++ ('-' :: ['2'])) }
        "a.txt" "abcde".data 0).body = "abcde".data.take (2 + 1)) := by
  have h1 := c2_range_negotiation false none "a.txt" "abcde".data 0 ['1'] ['2'] 1 2 5
    (by decide) (by decide) (by decide) (by decide) (by decide) (by decide) (by decide)
    (by decide) (by decide)
  have h2 := c2_range_negotiation false none "a.txt" "abcde".data 0 ['7'] ['2'] 7 2 5
    (by decide) (by decide) (by decide) (by decide) (by decide) (by decide) (by decide)
    (by decide) (by decide)
  have g1 := h1.1 (by decide) (by decide) (by decide)
  have g2 := h2.2.1 (by decide)
  have g3 := h1.2.2.1 (by decide)
  have g4 := h2.2.2.2.1 (by decide)
  have g5 := h1.2.2.2.2 (by decide) (by decide)
  exact ⟨⟨g1.1, g1.2.1⟩, ⟨g2.1, g2.2.1⟩, ⟨g3.1, g3.2.1, g3.2.2.2⟩, g4.1, g5.1, g5.2.1⟩

/-- Claim C3 (amended): for an `.html` file, a satisfiable `Range` request is
ignored — the file is served as a full 200 through the live-reload
injector exactly like a range-less request — but the conditional check and
the unsatisfiable-range check run before the HTML branch: a matching
`if-none-match` validator yields 304 (with or without a `Range` header)
and an out-of-bounds range yields 416 even for HTML. -/
theorem c3_html_negotiation (preview : Bool) (inm : Option String) (file : String)
    (contents : Chars) (mtime : Nat) (xs ys : Chars) (a b s : Nat)
    (hxd : ∀ c ∈ xs, c.isDigit = true) (hyd : ∀ c ∈ ys, c.isDigit = true)
    (hxne : xs ≠ []) (hyne : ys ≠ [])
    (ha : digitsVal xs = a) (hb : digitsVal ys = b) (hs : contents.length = s)
    (hhtml : endsWithS file ".html" = true) :
    (inm = some (etagOf contents.length mtime) →
      (sendFileCore preview { ifNoneMatch := inm, range := none } file contents mtime).status = 304
      ∧ (sendFileCore preview
          { ifNoneMatch := inm, range := some ("bytes=".data ++ (xs ++ '-' :: ys)) }
          file contents mtime).status = 304)
    ∧ (¬inm = some (etagOf contents.length mtime) →
      (sendFileCore preview { ifNoneMatch := inm, range := none } file contents mtime
          = sendHTML preview contents)
      ∧ (a ≤ b → b < s → b ≠ 0 →
        sendFileCore preview
            { ifNoneMatch := inm, range := some ("bytes=".data ++ (xs ++ '-' :: ys)) }
            file contents mtime
          = sendHTML preview contents)
      ∧ (s ≤ a ∨ s ≤ b →
        (sendFileCore preview
            { ifNoneMatch := inm, range := some ("bytes=".data ++ (xs ++ '-' :: ys)) }
            file contents mtime).status = 416)) := by
  subst ha; subst hb; subst hs
  constructor
  · intro h
    constructor
    · simp only [sendFileCore]
      rw [if_pos h]
    · simp only [sendFileCore]
      rw [if_pos h]
  · intro hinm
    refine ⟨sendFileCore_html preview inm file contents mtime hinm hhtml, ?_, ?_⟩
    · intro h1 h2 h3
      rw [sendFileCore_206 preview inm file contents mtime xs ys hxd hyd hxne hyne hinm h1 h2 h3]
      rw [if_pos hhtml]
    · intro hc
      rw [sendFileCore_416 preview inm file contents mtime xs ys hxd hyd hxne hyne hinm hc]

/-- Witness for C3: the 5-byte HTML file `abcde` with a satisfiable
`Range: bytes=1-2` is served as the full injected 200 page, while a
matching validator gives 304. -/
theorem c3_html_negotiation_witness :
    (sendFileCore false
        { ifNoneMatch := some (etagOf 5 0), range := some ("bytes=".data ++ (['1'] ++ '-' :: ['2'])) }
        "a.html" "abcde".data 0).status = 304
    ∧ (sendFileCore false
        { ifNoneMatch := none, range := some ("bytes=".data ++ (['1'] ++ '-' :: ['2'])) }
        "a.html" "abcde".data 0
      = sendHTML false "abcde".data) := by
  have h1 := c3_html_negotiation false (some (etagOf 5 0)) "a.html" "abcde".data 0 ['1'] ['2'] 1 2 5
    (by decide) (by decide) (by decide) (by decide) (by decide) (by decide) (by decide) (by decide)
  have h2 := c3_html_negotiation false none "a.html" "abcde".data 0 ['1'] ['2'] 1 2 5
    (by decide) (by decide) (by decide) (by decide) (by decide) (by decide) (by decide) (by decide)
  exact ⟨(h1.1 (by decide)).2, (h2.2 (by decide)).2.1 (by decide) (by decide) (by decide)⟩

/-- Claim C5 (amended): a non-HTML file served while live reload is active
streams exactly the negotiated byte window (the full contents without a
range header, the parsed window under a satisfiable one), with
`Content-Length` equal to the window size and `Content-Type` derived from
the file's extension — but the `Cache-Control` value is `no-cache`, not
the claimed `no-store` (the sole amendment; `no-store` is used only for
HTML responses). -/
theorem c5_nonhtml_stream (inm : Option String) (file : String)
    (contents : Chars) (mtime : Nat) (xs ys : Chars) (a b s : Nat)
    (hxd : ∀ c ∈ xs, c.isDigit = true) (hyd : ∀ c ∈ ys, c.isDigit = true)
    (hxne : xs ≠ []) (hyne : ys ≠ [])
    (ha : digitsVal xs = a) (hb : digitsVal ys = b) (hs : contents.length = s)
    (hinm : ¬inm = some (etagOf contents.length mtime))
    (hhtml : endsWithS file ".html" = false) :
    ((sendFileCore false { ifNoneMatch := inm, range := none } file contents mtime).status = 200
      ∧ (sendFileCore false { ifNoneMatch := inm, range := none } file contents mtime).body
        = contents
      ∧ (sendFileCore false { ifNoneMatch := inm, range := none } file contents mtime).contentLength
        = some (s : Int)
      ∧ (sendFileCore false { ifNoneMatch := inm, range := none } file contents mtime).contentType
        = some ((mimeLookup file).getD "text/plain")
      ∧ (sendFileCore false { ifNoneMatch := inm, range := none } file contents mtime).cacheControl
        = some "no-cache")
    ∧ (a ≤ b → b < s → b ≠ 0 →
      (sendFileCore false
          { ifNoneMatch := inm, range := some ("bytes=".data ++ (xs ++ '-' :: ys)) }
          file contents mtime).body = (contents.drop a).take (b - a + 1)
      ∧ (sendFileCore false
          { ifNoneMatch := inm, range := some ("bytes=".data ++ (xs ++ '-' :: ys)) }
          file contents mtime).contentLength = some ((b : Int) - (a : Int) + 1)
      ∧ (sendFileCore false
          { ifNoneMatch := inm, range := some ("bytes=".data ++ (xs ++ '-' :: ys)) }
          file contents mtime).contentType = some ((mimeLookup file).getD "text/plain")
      ∧ (sendFileCore false
          { ifNoneMatch := inm, range := some ("bytes=".data ++ (xs ++ '-' :: ys)) }
          file contents mtime).cacheControl = some "no-cache") := by
  subst ha; subst hb; subst hs
  constructor
  · rw [sendFileCore_200 false inm file contents mtime hinm hhtml]
    exact ⟨rfl, rfl, rfl, rfl, rfl⟩
  · intro h1 h2 h3
    rw [sendFileCore_206 false inm file contents mtime xs ys hxd hyd hxne hyne hinm h1 h2 h3]
    rw [if_neg (by simp [hhtml])]
    exact ⟨rfl, rfl, rfl, rfl⟩

/-- Witness for C5: the 5-byte file `abcde` without a range header and with
`Range: bytes=1-2`. -/
theorem c5_nonhtml_stream_witness :
    ((sendFileCore false { ifNoneMatch := none, range := none } "a.txt" "abcde".data 0).status = 200
      ∧ (sendFileCore false { ifNoneMatch := none, range := none }
          "a.txt" "abcde".data 0).cacheControl = some "no-cache")
    ∧ ((sendFileCore false
        { ifNoneMatch := none, range := some ("bytes=".data ++ (['1'] ++ '-' :: ['2'])) }
        "a.txt" "abcde".data 0).body = ("abcde".data.drop 1).take (2 - 1 + 1)
      ∧ (sendFileCore false
        { ifNoneMatch := none, range := some ("bytes=".data ++ (['1'] ++ '-' :: ['2'])) }
        "a.txt" "abcde".data 0).contentLength = some ((2 : Int) - (1 : Int) + 1)) := by
  have h := c5_nonhtml_stream none "a.txt" "abcde".data 0 ['1'] ['2'] 1 2 5
    (by decide) (by decide) (by decide) (by decide) (by decide) (by decide) (by decide)
    (by decide) (by decide)
  have g := h.2 (by decide) (by decide) (by decide)
  exact ⟨⟨h.1.1, h.1.2.2.2.2⟩, g.1, g.2.1⟩

/-- Claim C7: with the preview option set (reload disabled) the injection
step is the identity — `sendHTML` transmits its input unchanged — and a
served HTML file's response body is byte-identical to the file contents. -/
theorem c7_preview_identity (file : String) (contents : Chars) (mtime : Nat)
    (inm : Option String)
    (hhtml : endsWithS file ".html" = true)
    (hinm : ¬inm = some (etagOf contents.length mtime)) :
    (∀ h : Chars, (sendHTML true h).body = h)
    ∧ (sendFileCore true { ifNoneMatch := inm, range := none } file contents mtime).body
      = contents := by
  constructor
  · intro h
    rfl
  · rw [sendFileCore_html true inm file contents mtime hinm hhtml]
    rfl

/-- Witness for C7: the HTML file `a.html` with contents `x` served in
preview mode. -/
theorem c7_preview_identity_witness :
    (∀ h : Chars, (sendHTML true h).body = h)
    ∧ (sendFileCore true { ifNoneMatch := none, range := none } "a.html" "x".data 0).body
      = "x".data :=
  c7_preview_identity "a.html" "x".data 0 none (by decide) (by decide)

/-! ## Claim C8 — error responder -/

/-- Claim C8: for every caught failure value, the error responder produces a
200 response whose HTML body contains the failure's `message` and `stack`
fields, with the empty string substituted for a missing field; the
responder is a total function, so it never throws. -/
theorem c8_error_page (preview : Bool) (message stack : Option String) :
    (sendError preview { message := message, stack := stack }).status = 200
    ∧ (∃ u v, (sendError preview { message := message, stack := stack }).body
        = u ++ (message.getD "").data ++ v)
    ∧ (∃ u v, (sendError preview { message := message, stack := stack }).body
        = u ++ (stack.getD "").data ++ v) := by
  cases preview with
  | true =>
    refine ⟨rfl, ⟨errPre, '\n' :: ((stack.getD "").data ++ errSuf), ?_⟩,
      ⟨errPre ++ (message.getD "").data ++ ['\n'], errSuf, ?_⟩⟩
    · show errorHtmlBody { message := message, stack := stack } = _
      simp [errorHtmlBody]
    · show errorHtmlBody { message := message, stack := stack } = _
      simp [errorHtmlBody]
  | false =>
    have h0 : splitFirst false headPat errPre = some (errPreA, headPat, errPreB) := by decide
    have hsplit := splitFirst_append
      ((message.getD "").data ++ '\n' :: ((stack.getD "").data ++ errSuf)) h0
    have hbody : (sendError false { message := message, stack := stack }).body
        = errPreA ++ headPat ++ ReloadScript.data
          ++ (errPreB ++ ((message.getD "").data ++ '\n' :: ((stack.getD "").data ++ errSuf))) := by
      show prependHead (errorHtmlBody { message := message, stack := stack }) ReloadScript.data = _
      have heq : errorHtmlBody { message := message, stack := stack }
          = errPre ++ ((message.getD "").data ++ '\n' :: ((stack.getD "").data ++ errSuf)) := by
        simp [errorHtmlBody]
      rw [heq]
      rw [prependHead, hsplit]
    refine ⟨rfl, ⟨errPreA ++ headPat ++ ReloadScript.data ++ errPreB,
      '\n' :: ((stack.getD "").data ++ errSuf), ?_⟩,
      ⟨errPreA ++ headPat ++ ReloadScript.data ++ errPreB ++ (message.getD "").data ++ ['\n'],
        errSuf, ?_⟩⟩
    · rw [hbody]
      simp [List.append_assoc]
    · rw [hbody]
      simp [List.append_assoc]

/-! ## Claim C9 — debounced broadcast -/

/-- Under a burst (strictly increasing event times, each within the wait
window of its predecessor), only the last event survives the
no-later-event-within-window filter. -/
theorem debounce_filter_burst (w : Nat) :
    ∀ (l : List Nat), l.Chain' (fun x y => x < y ∧ y ≤ x + w) → ∀ m, l.getLast? = some m →
      l.filter (fun e => l.all (fun x => decide (x ≤ e) || decide (e + w < x))) = [m]
  | [], _, m, hm => by simp at hm
  | [a], _, m, hm => by
    simp only [List.getLast?_singleton, Option.some_inj] at hm
    subst hm
    simp
  | a :: b :: tl, hch, m, hm => by
    obtain ⟨hab, hch'⟩ := List.chain'_cons.1 hch
    have hm' : (b :: tl).getLast? = some m := by
      rw [← hm]
      simp
    have hlt : (a :: b :: tl).Chain' (· < ·) :=
      hch.imp (fun x y hxy => hxy.1)
    have hpw := List.chain'_iff_pairwise.1 hlt
    have ha_lt : ∀ e ∈ b :: tl, a < e := (List.pairwise_cons.1 hpw).1
    have hPa : ((a :: b :: tl).all fun x => decide (x ≤ a) || decide (a + w < x)) = false := by
      apply List.all_eq_false.mpr
      refine ⟨b, by simp, ?_⟩
      have h1 : ¬b ≤ a := by omega
      have h2 : ¬a + w < b := by omega
      simp [h1, h2]
    have hcongr : ∀ e ∈ b :: tl,
        ((a :: b :: tl).all fun x => decide (x ≤ e) || decide (e + w < x))
          = ((b :: tl).all fun x => decide (x ≤ e) || decide (e + w < x)) := by
      intro e he
      have hae : a ≤ e := Nat.le_of_lt (ha_lt e he)
      have hd : decide (a ≤ e) = true := by simpa using hae
      simp [List.all_cons, hd]
    rw [List.filter_cons_of_neg (by simp [hPa])]
    rw [List.filter_congr hcongr]
    exact debounce_filter_burst w (b :: tl) hch' m hm'

/-- Claim C9: a burst of raw filesystem change events — strictly increasing
times, each falling within the fixed debounce window of its predecessor —
makes the debounced watcher callback fire exactly once, at `last + wait`,
and that single broadcast appends the event-stream message
`data: reload\n\n` to every currently subscribed client connection. -/
theorem c9_debounce_broadcast (events : List Nat) (clients : List ClientConn) (m : Nat)
    (hchain : events.Chain' (fun x y => x < y ∧ y ≤ x + DebounceWait))
    (hlast : events.getLast? = some m) :
    debounceFires DebounceWait events = [m + DebounceWait]
    ∧ ∀ c ∈ clients,
        { c with written := c.written ++ ReloadMessage } ∈ broadcastReload clients := by
  constructor
  · unfold debounceFires
    rw [debounce_filter_burst DebounceWait events hchain m hlast]
    rfl
  · intro c hc
    exact List.mem_map.mpr ⟨c, hc, rfl⟩

/-- Witness for C9: three rapid changes at 0ms, 60ms and 110ms (each within
100ms of the previous) collapse into one broadcast at 210ms, delivered to
the one subscribed client. -/
theorem c9_debounce_broadcast_witness :
    debounceFires DebounceWait [0, 60, 110] = [110 + DebounceWait]
    ∧ ∀ c ∈ [ClientConn.mk 1 []],
        { c with written := c.written ++ ReloadMessage }
          ∈ broadcastReload [ClientConn.mk 1 []] :=
  c9_debounce_broadcast [0, 60, 110] [ClientConn.mk 1 []] 110
    (List.chain'_cons.2 ⟨by decide, List.chain'_cons.2 ⟨by decide, List.chain'_singleton _⟩⟩)
    (by decide)

/-! ## Claim C10 — listing a missing directory -/

/-- Claim C10: a request whose processed path ends in `/`, when neither
`<dir>/<path>/index.html` nor the directory `<dir>/<path>` exists (and,
for the root path, no entry index file exists), is not answered 404: the
target resolves to a directory listing, the directory read fails with
`ENOENT`, the failure is caught, and the client receives the 200 HTML
error page of the error responder. -/
theorem c10_missing_dir_error_page (fs : FS) (cfg : Config) (req : Req) (rawUrl : String)
    (h1 : endsWithS (processedPath rawUrl) "/" = true)
    (h2 : fs.findDir (joinPath cfg.dir (processedPath rawUrl)) = none)
    (h3 : fs.existsB (joinPath (joinPath cfg.dir (processedPath rawUrl)) "index.html") = false)
    (h4 : processedPath rawUrl = "/" → fs.existsB cfg.indexFile = false) :
    serveReq fs cfg req rawUrl
      = sendError cfg.preview (enoentScandir (joinPath cfg.dir (processedPath rawUrl)))
    ∧ (serveReq fs cfg req rawUrl).status = 200
    ∧ ¬(serveReq fs cfg req rawUrl).status = 404 := by
  have hsrc : ¬processedPath rawUrl = "/__source" := by
    intro h
    rw [h] at h1
    exact absurd h1 (by decide)
  have hres : resolveTarget fs cfg (processedPath rawUrl)
      = Target.listing (joinPath cfg.dir (processedPath rawUrl)) := by
    unfold resolveTarget
    rw [if_neg (fun hc => by
      obtain ⟨hp, hex⟩ := hc
      rw [h4 hp] at hex
      exact absurd hex (by decide))]
    rw [if_pos h1]
    rw [if_neg (by simp [h3])]
  have hmain : serveReq fs cfg req rawUrl
      = sendError cfg.preview (enoentScandir (joinPath cfg.dir (processedPath rawUrl))) := by
    unfold serveReq
    rw [if_neg (fun hc => hsrc hc.2)]
    rw [hres]
    simp only [listDirPath, h2]
  refine ⟨hmain, ?_, ?_⟩
  · rw [hmain]
    rfl
  · rw [hmain]
    intro h
    simp [sendError, sendHTML] at h

/-- Witness for C10: serving `/base` (which exists but is empty), the request
`GET /nope/` finds neither `/base/nope/index.html` nor `/base/nope` and
receives the 200 error page for the failed directory read. -/
theorem c10_missing_dir_error_page_witness :
    serveReq { files := [], dirs := [("/base", [])] }
        { dir := "/base", entryIsFile := false, indexFile := "/base/index.html"
          single := .off, preview := true, cwd := "/base" }
        { ifNoneMatch := none, range := none } "/nope/"
      = sendError true (enoentScandir "/base/nope")
    ∧ (serveReq { files := [], dirs := [("/base", [])] }
        { dir := "/base", entryIsFile := false, indexFile := "/base/index.html"
          single := .off, preview := true, cwd := "/base" }
        { ifNoneMatch := none, range := none } "/nope/").status = 200
    ∧ ¬(serveReq { files := [], dirs := [("/base", [])] }
        { dir := "/base", entryIsFile := false, indexFile := "/base/index.html"
          single := .off, preview := true, cwd := "/base" }
        { ifNoneMatch := none, range := none } "/nope/").status = 404 :=
  c10_missing_dir_error_page
    { files := [], dirs := [("/base", [])] }
    { dir := "/base", entryIsFile := false, indexFile := "/base/index.html"
      single := .off, preview := true, cwd := "/base" }
    { ifNoneMatch := none, range := none } "/nope/"
    (by decide) (by decide) (by decide) (by decide)

/-! ## Claim C6 — occurrence counting for the injected script -/

theorem isMatch_self (l : Chars) : isMatch false l l = true :=
  isMatch_eq_true_iff.2 ⟨[], by simp⟩

theorem containsSub_false_all {pat l : Chars} (hp : pat ≠ [])
    (h : containsSub pat l = false) : ∀ i, isMatch false pat (l.drop i) = false := by
  intro i
  by_cases hi : i < l.length + 1
  · have hall := List.any_eq_false.mp h i (List.mem_range.mpr hi)
    simpa using hall
  · rw [List.drop_eq_nil_of_le (by omega)]
    cases pat with
    | nil => exact absurd rfl hp
    | cons p ps => rfl

theorem isMatch_eq_of_length {pat m q : Chars} (hm : isMatch false pat (m ++ q) = true)
    (hl : m.length = pat.length) : m = pat := by
  obtain ⟨t, ht⟩ := isMatch_eq_true_iff.1 hm
  have h1 : (m ++ q).take m.length = m := List.take_left m q
  rw [ht, hl] at h1
  exact h1.symm.trans (List.take_left pat t)

/-- An occurrence of `S` in `P ++ S ++ Q` that starts inside `P` but ends past
it forces a nonempty proper border of `S`. -/
theorem border_of_straddle_left {P S Q : Chars} {i : Nat}
    (hi : i < P.length) (hov : P.length < i + S.length)
    (hm : isMatch false S ((P ++ S ++ Q).drop i) = true) :
    properBorder S = true := by
  obtain ⟨t, ht⟩ := isMatch_eq_true_iff.1 hm
  rw [List.append_assoc, drop_append_of_le (S ++ Q) (by omega)] at ht
  have hdl : (P.drop i).length = P.length - i := List.length_drop i P
  have htake : ((P.drop i) ++ (S ++ Q)).take ((P.drop i).length + (S.length - (P.length - i)))
      = (P.drop i) ++ (S ++ Q).take (S.length - (P.length - i)) :=
    List.take_append _
  rw [ht] at htake
  have hdk : (P.drop i).length + (S.length - (P.length - i)) = S.length := by omega
  rw [hdk, List.take_left S t] at htake
  rw [take_append_of_le Q (by omega)] at htake
  -- htake : S = P.drop i ++ S.take (S.length - (P.length - i))
  have hdrop : S.drop (P.drop i).length = S.take (S.length - (P.length - i)) := by
    nth_rewrite 1 [htake]
    rw [List.drop_left]
  apply List.any_eq_true.mpr
  refine ⟨S.length - (P.length - i), List.mem_range.mpr (by omega), ?_⟩
  show (decide (0 < S.length - (P.length - i))
    && isMatch false (S.take (S.length - (P.length - i)))
        (S.drop (S.length - (S.length - (P.length - i))))) = true
  have h2 : S.length - (S.length - (P.length - i)) = (P.drop i).length := by omega
  rw [h2, hdrop]
  simp [show 0 < S.length - (P.length - i) by omega, isMatch_self]

/-- An occurrence of `S` in `P ++ S ++ Q` that starts strictly inside the
`S` block forces a nonempty proper border of `S`. -/
theorem border_of_straddle_right {P S Q : Chars} {i : Nat}
    (hi : P.length < i) (hov : i < P.length + S.length)
    (hm : isMatch false S ((P ++ S ++ Q).drop i) = true) :
    properBorder S = true := by
  obtain ⟨t, ht⟩ := isMatch_eq_true_iff.1 hm
  have hij : i = P.length + (i - P.length) := by omega
  rw [List.append_assoc, hij, drop_append_plus P (S ++ Q) (i - P.length)] at ht
  rw [drop_append_of_le Q (by omega)] at ht
  -- ht : S.drop (i - P.length) ++ Q = S ++ t
  have hlen : (S.drop (i - P.length)).length = S.length - (i - P.length) :=
    List.length_drop _ S
  have htake := congrArg (List.take (S.length - (i - P.length))) ht
  rw [take_append_of_le Q (by omega), take_append_of_le t (by omega)] at htake
  rw [← hlen, List.take_length _] at htake
  -- htake : S.drop (i - P.length) = S.take (S.length - (i - P.length))
  apply List.any_eq_true.mpr
  refine ⟨S.length - (i - P.length), List.mem_range.mpr (by omega), ?_⟩
  show (decide (0 < S.length - (i - P.length))
    && isMatch false (S.take (S.length - (i - P.length)))
        (S.drop (S.length - (S.length - (i - P.length))))) = true
  have h2 : S.length - (S.length - (i - P.length)) = i - P.length := by omega
  rw [h2, htake]
  simp [show 0 < S.length - (i - P.length) by omega, isMatch_self]

theorem filter_beq_range_length : ∀ (n k : Nat), k < n →
    ((List.range n).filter (fun i => i == k)).length = 1
  | 0, _, h => by omega
  | n + 1, k, h => by
    rw [List.range_succ, List.filter_append]
    by_cases hk : k = n
    · subst hk
      have hzero : (List.range k).filter (fun i => i == k) = [] := by
        apply List.filter_eq_nil_iff.mpr
        intro a ha
        have halt := List.mem_range.mp ha
        simp only [beq_iff_eq]
        omega
      rw [hzero]
      simp
    · have hone : ([n] : List Nat).filter (fun i => i == k) = [] := by
        rw [List.filter_cons_of_neg (by simp only [beq_iff_eq]; omega)]
        rfl
      rw [hone, List.append_nil]
      exact filter_beq_range_length n k (by omega)

/-- Inserting a border-free block `S` between `P` and `Q`, when `S` occurs
nowhere in `P ++ Q`, yields exactly one occurrence of `S`. -/
theorem countOccur_sandwich (S P Q : Chars)
    (hnb : properBorder S = false)
    (hnp : ∀ i, isMatch false S ((P ++ Q).drop i) = false) :
    countOccur S (P ++ S ++ Q) = 1 := by
  have hpoint : ∀ i, isMatch false S ((P ++ S ++ Q).drop i) = (i == P.length) := by
    intro i
    by_cases hip : i = P.length
    · subst hip
      have hdrop : (P ++ S ++ Q).drop P.length = S ++ Q := by
        rw [List.append_assoc]
        have h := drop_append_plus P (S ++ Q) 0
        simp only [Nat.add_zero, List.drop_zero] at h
        exact h
      rw [hdrop]
      simp [isMatch_refl_append]
    · have hne : (i == P.length) = false := by simp [hip]
      rw [hne]
      cases hb : isMatch false S ((P ++ S ++ Q).drop i) with
      | false => rfl
      | true =>
        exfalso
        rcases Nat.lt_or_ge i P.length with hlt | hge
        · rcases le_or_lt (i + S.length) P.length with hin | hov
          · have hi_le : i ≤ P.length := Nat.le_of_lt hlt
            rw [List.append_assoc, drop_append_of_le (S ++ Q) hi_le] at hb
            have hSlen : S.length ≤ (P.drop i).length := by
              rw [List.length_drop]
              omega
            rw [isMatch_append_of_le (S ++ Q) hSlen] at hb
            have hq : isMatch false S ((P ++ Q).drop i) = true := by
              rw [drop_append_of_le Q hi_le, isMatch_append_of_le Q hSlen]
              exact hb
            rw [hnp i] at hq
            exact Bool.false_ne_true hq
          · rw [border_of_straddle_left hlt hov hb] at hnb
            exact absurd hnb (by simp)
        · rcases Nat.lt_or_ge i (P.length + S.length) with hov | hout
          · have hgt : P.length < i := by omega
            rw [border_of_straddle_right hgt hov hb] at hnb
            exact absurd hnb (by simp)
          · have hi2 : i = P.length + (S.length + (i - P.length - S.length)) := by omega
            rw [List.append_assoc, hi2, drop_append_plus P (S ++ Q) _] at hb
            rw [drop_append_plus S Q _] at hb
            have hq : isMatch false S ((P ++ Q).drop (P.length + (i - P.length - S.length)))
                = true := by
              rw [drop_append_plus P Q _]
              exact hb
            rw [hnp _] at hq
            exact Bool.false_ne_true hq
  unfold countOccur
  rw [List.filter_congr (fun i _ => hpoint i)]
  apply filter_beq_range_length
  simp only [List.length_append]
  omega

/-- Claim C6 (amended): with reload enabled the injector inserts the fixed
script immediately after the first literal `<head>` occurrence; failing
that, immediately after the first case-insensitive `<!doctype html>`
occurrence; failing both, it prepends the script (and a newline) to the
whole document — and whenever the source payload does not already contain
the script, the output contains exactly one copy of it. -/
theorem c6_injection (html : Chars)
    (hfree : containsSub ReloadScript.data html = false) :
    (∀ p m q, splitFirst false headPat html = some (p, m, q) →
      prependHead html ReloadScript.data = p ++ m ++ ReloadScript.data ++ q ∧ m = headPat)
    ∧ (splitFirst false headPat html = none →
      ∀ p m q, splitFirst true doctypePat html = some (p, m, q) →
        prependHead html ReloadScript.data = p ++ m ++ ReloadScript.data ++ q
        ∧ m.length = doctypePat.length)
    ∧ (splitFirst false headPat html = none → splitFirst true doctypePat html = none →
      prependHead html ReloadScript.data = ReloadScript.data ++ '\n' :: html)
    ∧ countOccur ReloadScript.data (prependHead html ReloadScript.data) = 1 := by
  have hRS : ReloadScript.data ≠ [] := by decide
  have hnb : properBorder ReloadScript.data = false := by decide
  have hall := containsSub_false_all hRS hfree
  refine ⟨?_, ?_, ?_, ?_⟩
  · intro p m q hsp
    refine ⟨?_, isMatch_eq_of_length (splitFirst_match hsp).1 (splitFirst_match hsp).2⟩
    rw [prependHead, hsp]
  · intro hnone p m q hsp
    refine ⟨?_, (splitFirst_match hsp).2⟩
    rw [prependHead, hnone, hsp]
  · intro hnone1 hnone2
    rw [prependHead, hnone1, hnone2]
  · rcases hsp1 : splitFirst false headPat html with _ | ⟨p, m, q⟩
    · rcases hsp2 : splitFirst true doctypePat html with _ | ⟨p, m, q⟩
      · have hout : prependHead html ReloadScript.data
            = ([] ++ ReloadScript.data) ++ ('\n' :: html) := by
          rw [prependHead, hsp1, hsp2]
          rfl
        rw [hout]
        apply countOccur_sandwich _ _ _ hnb
        intro i
        cases i with
        | zero => rfl
        | succ j =>
          show isMatch false ReloadScript.data (html.drop j) = false
          exact hall j
      · have heq := splitFirst_eq_append hsp2
        have hout : prependHead html ReloadScript.data
            = ((p ++ m) ++ ReloadScript.data) ++ q := by
          rw [prependHead, hsp1, hsp2]
        rw [hout]
        apply countOccur_sandwich _ _ _ hnb
        intro i
        rw [← heq]
        exact hall i
    · have heq := splitFirst_eq_append hsp1
      have hout : prependHead html ReloadScript.data
          = ((p ++ m) ++ ReloadScript.data) ++ q := by
        rw [prependHead, hsp1]
      rw [hout]
      apply countOccur_sandwich _ _ _ hnb
      intro i
      rw [← heq]
      exact hall i

/-- Witness for C6: the document `<head><body>x` (which does not contain the
script) receives the script right after its `<head>`, and the output
contains exactly one copy. -/
theorem c6_injection_witness :
    countOccur ReloadScript.data (prependHead "<head><body>x".data ReloadScript.data) = 1
    ∧ prependHead "<head><body>x".data ReloadScript.data
      = [] ++ "<head>".data ++ ReloadScript.data ++ "<body>x".data := by
  have h := c6_injection "<head><body>x".data (by decide)
  refine ⟨h.2.2.2, ?_⟩
  have hsp : splitFirst false headPat "<head><body>x".data
      = some ([], "<head>".data, "<body>x".data) := by decide
  exact (h.1 [] "<head>".data "<body>x".data hsp).1

/-! ## Counterexamples for claims C2, C3, C5, C6 -/

/-- Counterexample to claim C2 as stated: for the 2-byte file `ab` and
`Range: bytes=0-0` (so `a = b = 0 < size`), the code's
`parseInt(y) || size - 1` treats the parsed end bound `0` as absent, and
the response is 206 with body length 2 and `Content-Range: bytes 0-1/2` —
not body length `b - a + 1 = 1` with `bytes 0-0/2`. -/
theorem c2_zero_end_bound_counterexample :
    (sendFileCore false { ifNoneMatch := none, range := some "bytes=0-0".data }
      "a.txt" "ab".data 0).status = 206
    ∧ (sendFileCore false { ifNoneMatch := none, range := some "bytes=0-0".data }
      "a.txt" "ab".data 0).body.length = 2
    ∧ (sendFileCore false { ifNoneMatch := none, range := some "bytes=0-0".data }
      "a.txt" "ab".data 0).contentRange = some "bytes 0-1/2"
    ∧ ¬((sendFileCore false { ifNoneMatch := none, range := some "bytes=0-0".data }
      "a.txt" "ab".data 0).body.length = 1
      ∧ (sendFileCore false { ifNoneMatch := none, range := some "bytes=0-0".data }
        "a.txt" "ab".data 0).contentRange = some "bytes 0-0/2") := by
  decide

/-- Counterexample to claim C3 as stated: an `.html` file requested with a
matching `if-none-match` validator is answered 304, not a full 200 through
the injector — the conditional check runs before the HTML branch. -/
theorem c3_html_conditional_counterexample :
    (sendFileCore false { ifNoneMatch := some (etagOf 1 0), range := none }
      "a.html" "x".data 0).status = 304
    ∧ ¬(sendFileCore false { ifNoneMatch := some (etagOf 1 0), range := none }
      "a.html" "x".data 0).status = 200 := by
  decide

/-- Counterexample to claim C5 as stated: a non-HTML file served with reload
active carries `Cache-Control: no-cache`, not the claimed `no-store`. -/
theorem c5_cache_control_counterexample :
    (sendFileCore false { ifNoneMatch := none, range := none } "a.txt" "x".data 0).cacheControl
      = some "no-cache"
    ∧ ¬(sendFileCore false { ifNoneMatch := none, range := none } "a.txt" "x".data 0).cacheControl
      = some "no-store" := by
  decide

/-- Counterexample to claim C6 as stated: an HTML payload that already
contains the reload script (and no `<head>`/doctype marker) yields an
output with two copies of the script, not exactly one. -/
theorem c6_preexisting_script_counterexample :
    containsSub ReloadScript.data ReloadScript.data = true
    ∧ countOccur ReloadScript.data (prependHead ReloadScript.data ReloadScript.data) = 2 := by
  decide

end W7
